import Mathlib

/-!
Verification development for the browser-agent flow recording, parameterization
and replay subsystem.  The Python sources (`browser_agent.py`,
`manual_recorder.py`, `frontend/server.py`) are shallowly embedded: strings are
lists of characters, Python dicts are insertion-ordered association lists, and
Python string operations (`in`, `split`, `strip`, `replace`, `startswith`,
slicing) are modelled by executable functions with CPython semantics.
-/

/-- Python strings are modelled as lists of characters. -/
abbrev Str := List Char

/-- Insertion-ordered string-to-string mapping, modelling a Python `dict`. -/
abbrev Dict := List (Str × Str)

/-- Strict left-biased choice on options (first `some` wins). -/
def optOr (a b : Option Str) : Option Str :=
  match a with
  | some v => some v
  | none => b

/-- Python `d[k]` / `k in d`: first binding of the key wins. -/
def lookupBy {α : Type} (d : List (Str × α)) (k : Str) : Option α :=
  match d with
  | [] => none
  | (k2, v) :: rest => if k2 = k then some v else lookupBy rest k

/-- Python `d[k] = v`: update the existing binding in place, else append. -/
def dictSet (d : Dict) (k v : Str) : Dict :=
  match d with
  | [] => [(k, v)]
  | (k2, v2) :: rest => if k2 = k then (k, v) :: rest else (k2, v2) :: dictSet rest k v

/-- Lower-casing of a whole string, modelling Python `str.lower` on ASCII text. -/
def toLowerL (s : Str) : Str := s.map Char.toLower

/-- Python `str.strip()`: remove leading and trailing whitespace. -/
def pyStrip (s : Str) : Str :=
  ((s.dropWhile Char.isWhitespace).reverse.dropWhile Char.isWhitespace).reverse

/-- Prepend a character to the first part of a split result. -/
def consHead (c : Char) (parts : List Str) : List Str :=
  match parts with
  | [] => [[c]]
  | p :: ps => (c :: p) :: ps

/-- Fuelled worker for `pySplit`; the fuel is always sufficient at the call site. -/
def pySplitAux (sep : Str) : Nat → Str → List Str
  | 0, s => [s]
  | fuel + 1, s =>
    if sep.isPrefixOf s ∧ sep ≠ [] then
      [] :: pySplitAux sep fuel (s.drop sep.length)
    else
      match s with
      | [] => [[]]
      | c :: rest => consHead c (pySplitAux sep fuel rest)

/-- Python `s.split(sep)` for a non-empty separator: split at each
left-to-right non-overlapping occurrence of `sep`. -/
def pySplit (s sep : Str) : List Str := pySplitAux sep (s.length + 1) s

/-- Fuelled worker for `pyReplace`; the fuel is always sufficient at the call site. -/
def pyReplaceAux (old new : Str) : Nat → Str → Str
  | 0, s => s
  | fuel + 1, s =>
    match old, s with
    | [], [] => new
    | [], c :: rest => new ++ c :: pyReplaceAux old new fuel rest
    | _ :: _, s2 =>
      if old.isPrefixOf s2 then
        new ++ pyReplaceAux old new fuel (s2.drop old.length)
      else
        match s2 with
        | [] => []
        | c :: rest => c :: pyReplaceAux old new fuel rest

/-- Python `s.replace(old, new)`: replace every left-to-right non-overlapping
occurrence of `old` by `new` (for empty `old`, CPython inserts `new` between
all characters and at both ends). -/
def pyReplace (s old new : Str) : Str := pyReplaceAux old new (s.length + 1) s

/-- Joining a list of parts with a separator; `joinWith sep parts` models
Python `sep.join(parts)`. -/
def joinWith (sep : Str) : List Str → Str
  | [] => []
  | [p] => p
  | p :: ps => p ++ sep ++ joinWith sep ps

/-- Python `needle in hay` on strings: Boolean substring test. -/
def strIn (needle : Str) : Str → Bool
  | [] => needle.isEmpty
  | c :: rest => needle.isPrefixOf (c :: rest) || strIn needle rest

/-! ## String constants appearing in `browser_agent.py` -/

/-- The parameter name `"website"`. -/
def wkey : Str := ("website").toList

/-- The parameter name `"search_term"`. -/
def skey : Str := ("search_term").toList

/-- The search phrase `"search for"`. -/
def sepStr : Str := ("search for").toList

/-- The boilerplate ending `" on google"`. -/
def ogStr : Str := (" on google").toList

/-- The boilerplate ending `" on bing"`. -/
def obStr : Str := (" on bing").toList

/-- The action-type name `"go_to_url"`. -/
def goKey : Str := ("go_to_url").toList

/-- The action-type name `"input_text"`. -/
def inKey : Str := ("input_text").toList

/-- The action-type name `"click_element_by_index"`. -/
def clKey : Str := ("click_element_by_index").toList

/-- The scheme separator `"://"`. -/
def schemeStr : Str := ("://").toList

/-- The leading host text `"www."` stripped from domains. -/
def wwwStr : Str := ("www.").toList

/-- The fixed candidate list of known website substrings, in source order. -/
def websites : List Str :=
  [("google.com").toList, ("bing.com").toList, ("github.com").toList,
   ("example.com").toList, ("youtube.com").toList]

/-- The `for website in websites: if website in task_lower: ...; break` loop:
first candidate that occurs in the lower-cased task. -/
def findWebsite (taskLower : Str) : List Str → Option Str
  | [] => none
  | w :: ws => if strIn w taskLower then some w else findWebsite taskLower ws

/-- Embedding of `extract_parameters_from_task` (browser_agent.py, lines 35-56):
Strategy A parameter extraction from the free-text task. -/
def extractParametersFromTask (task : Str) : Dict :=
  let task_lower := toLowerL task
  let p1 : Dict :=
    match findWebsite task_lower websites with
    | some w => dictSet [] wkey w
    | none => []
  if strIn sepStr task_lower then
    let parts := pySplit task sepStr
    if parts.length > 1 then
      let search_term := pyStrip (parts.getD 1 [])
      let search_term := pyReplace (pyReplace search_term ogStr []) obStr []
      dictSet p1 skey search_term
    else p1
  else p1

/-! ## Flow data model (persisted JSON documents, spec section 3) -/

/-- Parameters of one action invocation; field presence models key presence in
the JSON object (only the fields the core reads or writes are named). -/
structure ActionParams where
  url : Option Str := none
  text : Option Str := none
  index : Option Nat := none
  new_tab : Option Bool := none
  clear_existing : Option Bool := none
  while_holding_ctrl : Option Bool := none
deriving Repr

/-- One `ActionInvocation` JSON object: its `.items()` list of
(action-type, parameters) bindings (a single-key mapping in practice). -/
abbrev ActionInv := List (Str × ActionParams)

/-- The `model_output` object of a step. -/
structure ModelOutput where
  evaluation_previous_goal : Option Str := none
  memory : Option Str := none
  next_goal : Option Str := none
  action : List ActionInv := []
  thinking : Option Str := none
deriving Repr

/-- One entry of a step's `result` array. -/
structure ResultEntry where
  is_done : Bool := false
  error : Option Str := none
  include_extracted_content_only_once : Bool := false
  include_in_memory : Bool := false
deriving Repr

/-- The `state` object of a step (page context, carried through). -/
structure StepState where
  url : Str
  title : Str
deriving Repr

/-- The `metadata` object of a step (step ordinal; wall-clock timestamps are
not modelled). -/
structure StepMeta where
  step_number : Nat
deriving Repr

/-- One step of a flow's history. -/
structure Step where
  model_output : Option ModelOutput := none
  result : List ResultEntry := []
  state : Option StepState := none
  metadata : Option StepMeta := none
deriving Repr

/-- A persisted flow document. -/
structure FlowDoc where
  original_user_task : Option Str := none
  history : List Step := []
deriving Repr

/-- `step.get("model_output", {}).get("action", [])`. -/
def stepActions (step : Step) : List ActionInv :=
  match step.model_output with
  | some mo => mo.action
  | none => []

/-- `url.split("://")[1].split("/")[0]`: the `domain` local of the source. -/
def domainOf (url : Str) : Str :=
  ((pySplit url schemeStr).getD 1 []).takeWhile (fun c => c != '/')

/-- The website value recorded for a `go_to_url` URL containing `"://"`:
the domain with a leading `"www."` removed. -/
def hostOf (url : Str) : Str :=
  if wwwStr.isPrefixOf (domainOf url) then (domainOf url).drop 4 else domainOf url

/-- The `go_to_url` half of the Strategy B scanning loop body
(browser_agent.py, lines 77-86). -/
def scanGo (params : Dict) (action_type : Str) (action_params : ActionParams) : Dict :=
  if action_type = goKey then
    match action_params.url with
    | some url =>
      if strIn schemeStr url then
        if !(wwwStr.isPrefixOf (domainOf url)) then dictSet params wkey (domainOf url)
        else dictSet params wkey ((domainOf url).drop 4)
      else params
    | none => params
  else params

/-- The `input_text` half of the Strategy B scanning loop body
(browser_agent.py, lines 88-92). -/
def scanInput (params : Dict) (action_type : Str) (action_params : ActionParams) : Dict :=
  if action_type = inKey then
    match action_params.text with
    | some text =>
      if (pyStrip text).length > 0 then dictSet params skey text else params
    | none => params
  else params

/-- The whole Strategy B loop body for one (action-type, params) binding. -/
def scanItem (params : Dict) (it : Str × ActionParams) : Dict :=
  scanInput (scanGo params it.1 it.2) it.1 it.2

/-- The nested `for step / for action / for action_type, action_params` loops
of `extract_parameters_from_flow` (browser_agent.py, lines 69-94). -/
def extractFromHistory (history : List Step) : Dict :=
  history.foldl
    (fun params step =>
      (stepActions step).foldl
        (fun params action => action.foldl scanItem params) params)
    []

/-- Embedding of `extract_parameters_from_flow` (browser_agent.py, lines
59-94): Strategy A on the original task when that is present and non-empty
(Python truthiness), falling back to the action-history scan whenever
Strategy A produced nothing. -/
def extractParametersFromFlow (flow : FlowDoc) : Dict :=
  let viaTask : Dict :=
    match flow.original_user_task with
    | some t => if t = [] then [] else extractParametersFromTask t
    | none => []
  if viaTask ≠ [] then viaTask
  else extractFromHistory flow.history

/-- Embedding of `substitute_parameters_in_task` (browser_agent.py, lines
97-111): literal replace-all of each recognized parameter's old value. -/
def substituteParametersInTask (original_task : Str) (param_values : Dict)
    (original_params : Dict) : Str :=
  param_values.foldl
    (fun new_task pv =>
      if pv.1 = wkey ∧ (lookupBy original_params pv.1).isSome then
        pyReplace new_task ((lookupBy original_params pv.1).getD []) pv.2
      else if pv.1 = skey ∧ (lookupBy original_params pv.1).isSome then
        pyReplace new_task ((lookupBy original_params pv.1).getD []) pv.2
      else new_task)
    original_task

/-! ## Flow store and replay drivers (browser_agent.py, lines 114-274) -/

/-- The flow store: a name-indexed collection of parsed flow documents,
modelling the `flows/` directory. -/
abbrev FlowStore := List (Str × FlowDoc)

/-- The fixed placeholder task `"Replay saved flow"`. -/
def placeholderTask : Str := ("Replay saved flow").toList

/-- The literal-replay instruction wrapper `"Replay this flow: "`. -/
def replayWrap : Str := ("Replay this flow: ").toList

/-- `history[0].get("model_output", {}).get("thinking", "Replay saved flow")`:
the fallback task derived from a step's free-text rationale. -/
def fallbackTaskOf (first_step : Step) : Str :=
  match first_step.model_output with
  | some mo => mo.thinking.getD placeholderTask
  | none => placeholderTask

/-- Observable outcome of `replay_flow`: either an early error return or an
invocation of the agent executor with the constructed task (`ran`).  The
source performs no write to the flow store in any path. -/
inductive ReplayOutcome where
  | notFound
  | emptyHistory
  | ran (agentTask : Str)
deriving DecidableEq, Repr

/-- Embedding of `replay_flow` (browser_agent.py, lines 206-274): literal
replay.  The task handed to the agent is always derived from the first step's
`model_output.thinking` (or the placeholder); `original_user_task` is not
consulted by this function. -/
def replayFlow (store : FlowStore) (flow_name : Str) : ReplayOutcome :=
  match lookupBy store flow_name with
  | none => ReplayOutcome.notFound
  | some flow_data =>
    match flow_data.history with
    | [] => ReplayOutcome.emptyHistory
    | first_step :: _ =>
      ReplayOutcome.ran (replayWrap ++ fallbackTaskOf first_step)

/-- Observable outcome of `replay_flow_with_params`. -/
inductive ParamReplayOutcome where
  | notFound
  | emptyHistory
  | noParameters
  | ran (agentTask : Str)
deriving DecidableEq, Repr

/-- Embedding of `replay_flow_with_params` (browser_agent.py, lines 114-203).
`userInputs` models the interactive `input()` answers, keyed by parameter
name; a blank answer (after stripping) keeps the extracted default. -/
def replayFlowWithParams (store : FlowStore) (flow_name : Str)
    (userInputs : Str → Str) : ParamReplayOutcome :=
  match lookupBy store flow_name with
  | none => ParamReplayOutcome.notFound
  | some flow_data =>
    match flow_data.history with
    | [] => ParamReplayOutcome.emptyHistory
    | first_step :: _ =>
      let original_task :=
        match flow_data.original_user_task with
        | some t => if t = [] then fallbackTaskOf first_step else t
        | none => fallbackTaskOf first_step
      let parameters := extractParametersFromFlow flow_data
      if parameters = [] then ParamReplayOutcome.noParameters
      else
        let param_values := parameters.map
          (fun p =>
            let entered := pyStrip (userInputs p.1)
            (p.1, if entered ≠ [] then entered else p.2))
        ParamReplayOutcome.ran
          (substituteParametersInTask original_task param_values parameters)

/-! ## Recording manager (frontend/server.py, lines 28-49) -/

/-- The mutable state of `RecordingManager` (process handles are external). -/
structure RecordingManager where
  is_recording : Bool := false
  current_flow_name : Option Str := none
deriving DecidableEq, Repr

/-- Embedding of `RecordingManager.start_recording`: returns the
`(success, message)` pair together with the resulting manager state and the
flow store, which the call itself never touches (the spawned recording run is
an external collaborator). -/
def startRecording (m : RecordingManager) (store : FlowStore) (flow_name : Str) :
    (Bool × Str) × RecordingManager × FlowStore :=
  if m.is_recording then
    ((false, ("Already recording").toList), m, store)
  else
    ((true, ("Recording started").toList),
     { is_recording := true, current_flow_name := some flow_name }, store)

/-! ## Manual-action-to-flow conversion (manual_recorder.py, lines 167-244) -/

/-- A captured browser event, as produced by the CDP capture layer
(`_capture_navigation` and `_handle_console_event` emit exactly these three
kinds).  The click payload is carried opaquely; conversion ignores it. -/
inductive CapturedEvent where
  | navigation (url : Str)
  | click (data : Str)
  | input (value : Str)
deriving DecidableEq, Repr

/-- The single action produced for one event, given the number of actions
already emitted (the source's `len(actions) + 1` index estimation). -/
def convertEvent (actionsSoFar : Nat) : CapturedEvent → Str × ActionParams
  | CapturedEvent.navigation url =>
    (goKey, { url := some url, new_tab := some false })
  | CapturedEvent.click _ =>
    (clKey, { index := some (actionsSoFar + 1), while_holding_ctrl := some false })
  | CapturedEvent.input v =>
    (inKey, { index := some (actionsSoFar + 1), text := some v, clear_existing := some true })

/-- The event loop of `_convert_to_browser_use_actions`, threading the
growing `actions` list. -/
def convertAux : List CapturedEvent → List ActionInv → List ActionInv
  | [], acc => acc
  | e :: rest, acc => convertAux rest (acc ++ [[convertEvent acc.length e]])

/-- Embedding of `ManualRecorder._convert_to_browser_use_actions`
(manual_recorder.py, lines 167-206). -/
def convertToBrowserUseActions (events : List CapturedEvent) : List ActionInv :=
  convertAux events []

/-- One synthesized step of `_create_flow_structure` for action `i` of
`total` (wall-clock timestamps are not modelled). -/
def mkManualStep (total i : Nat) (action : ActionInv) : Step :=
  { model_output := some
      { evaluation_previous_goal := some (("Manual recording step").toList)
        memory := some ((("User manually performed action ").toList) ++ Nat.toDigits 10 (i + 1))
        next_goal := some ((("Execute recorded action: ").toList) ++ (action.map Prod.fst).headD [])
        action := [action]
        thinking := some ((("Recorded from manual user demonstration - step ").toList)
          ++ Nat.toDigits 10 (i + 1)) }
    result := [{ is_done := i == total - 1, error := none,
                 include_extracted_content_only_once := false, include_in_memory := true }]
    state := some { url := ("recorded_manually").toList, title := ("Manual Recording").toList }
    metadata := some { step_number := i + 1 } }

/-- The `enumerate(actions)` loop of `_create_flow_structure`. -/
def buildHistory (total : Nat) : Nat → List ActionInv → List Step
  | _, [] => []
  | i, a :: rest => mkManualStep total i a :: buildHistory total (i + 1) rest

/-- Embedding of `ManualRecorder._create_flow_structure`
(manual_recorder.py, lines 208-244). -/
def createFlowStructure (actions : List ActionInv) (task_description : Str) : FlowDoc :=
  { original_user_task := some task_description
    history := buildHistory actions.length 0 actions }

/-! ## Spec-side "last match wins" description of the Strategy B scan -/

/-- The website value contributed by one (action-type, params) binding, per
the spec: a `go_to_url` action whose URL contains the scheme separator
contributes its host. -/
def websiteOf (it : Str × ActionParams) : Option Str :=
  if it.1 = goKey then
    match it.2.url with
    | some url => if strIn schemeStr url then some (hostOf url) else none
    | none => none
  else none

/-- The search-term value contributed by one binding, per the spec: an
`input_text` action whose text is non-blank after trimming contributes its
(untrimmed) text. -/
def searchOf (it : Str × ActionParams) : Option Str :=
  if it.1 = inKey then
    match it.2.text with
    | some text => if (pyStrip text).length > 0 then some text else none
    | none => none
  else none

/-- Last contributed website over a scan order (later matches overwrite). -/
def lastWebsite (items : List (Str × ActionParams)) : Option Str :=
  items.foldl (fun acc it => optOr (websiteOf it) acc) none

/-- Last contributed search term over a scan order. -/
def lastSearch (items : List (Str × ActionParams)) : Option Str :=
  items.foldl (fun acc it => optOr (searchOf it) acc) none

/-- All (action-type, params) bindings of one step, in within-step order. -/
def itemsOfStep (st : Step) : List (Str × ActionParams) := (stepActions st).flatten

/-- All bindings of a history, in step order then within-step order. -/
def historyItems (history : List Step) : List (Str × ActionParams) :=
  (history.map itemsOfStep).flatten

/-- Spec-side website parameter of a history: host of the last `go_to_url`
action whose URL contains `"://"`. -/
def websiteFromHistory (history : List Step) : Option Str :=
  lastWebsite (historyItems history)

/-- Spec-side search-term parameter of a history: text of the last
`input_text` action whose text is non-blank after trimming. -/
def searchFromHistory (history : List Step) : Option Str :=
  lastSearch (historyItems history)


/-! ## Accessors and spec-side helpers for the manual converter -/

/-- Action-type name of step `i`: first key of its first action invocation. -/
def actionTypeAt (flow : FlowDoc) (i : Nat) : Option Str :=
  match flow.history[i]? with
  | some st =>
    match st.model_output with
    | some mo => ((mo.action.headD []).map Prod.fst).head?
    | none => none
  | none => none

/-- The `is_done` flag of the first result entry of step `i`. -/
def isDoneAt (flow : FlowDoc) (i : Nat) : Bool :=
  match flow.history[i]? with
  | some st =>
    match st.result.head? with
    | some r => r.is_done
    | none => false
  | none => false

/-- The action-type name each captured event kind maps to. -/
def eventKey : CapturedEvent → Str
  | CapturedEvent.navigation _ => goKey
  | CapturedEvent.click _ => clKey
  | CapturedEvent.input _ => inKey

/-- Spec-side converter: the action for the event at position `i` uses index
estimation `i + 1`, since every event appends exactly one action. -/
def convertFrom (i : Nat) : List CapturedEvent → List ActionInv
  | [] => []
  | e :: rest => [convertEvent i e] :: convertFrom (i + 1) rest

/-- Keys of a dictionary, in insertion order. -/
def keysOf (d : Dict) : List Str := d.map Prod.fst


/-- Boolean prefix test agrees with the prefix relation. -/
theorem isPrefixOf_eq_iff {l1 l2 : Str} : l1.isPrefixOf l2 = true ↔ l1 <+: l2 :=
  List.isPrefixOf_iff_prefix

/-! ## Sanity checks mirroring CPython runs of the source functions -/

-- Sanity checks of the CPython semantics of the primitives.
example : pySplit ("a:b:c").toList (":").toList = [("a").toList, ("b").toList, ("c").toList] := by
  decide
example : pySplit ("ab").toList (":").toList = [("ab").toList] := by decide
example : pyReplace ("cats on google.com").toList (" on google").toList [] = ("cats.com").toList := by
  decide
example : pyReplace ("ab").toList [] ("-").toList = ("-a-b-").toList := by decide
example : pyStrip ("  x y ").toList = ("x y").toList := by decide


-- Concrete sanity checks against a CPython run of the source function.
example : extractParametersFromTask (("search for cats on google").toList) =
    [(skey, ("cats").toList)] := by decide
example : extractParametersFromTask (("search for dogs on example.com").toList) =
    [(wkey, ("example.com").toList), (skey, ("dogs on example.com").toList)] := by decide


-- Sanity checks mirroring CPython runs of the source functions.
example : extractParametersFromFlow
    { original_user_task := some (("visit bing.com").toList), history := [] } =
    [(wkey, ("bing.com").toList)] := by decide
example : substituteParametersInTask (("search for cats").toList)
    [(skey, ("dogs").toList)] [(skey, ("cats").toList)] = ("search for dogs").toList := by decide
example : extractFromHistory
    [{ model_output := some { action :=
        [[(goKey, { url := some (("https://www.example.com/x").toList) })],
         [(inKey, { text := some (("hello").toList) })]] } }] =
    [(wkey, ("example.com").toList), (skey, ("hello").toList)] := by decide


-- Sanity checks.
example : replayFlow [] (("x").toList) = ReplayOutcome.notFound := by decide
example :
    replayFlow [((("f").toList),
      { original_user_task := some (("A").toList),
        history := [{ model_output := some { thinking := some (("B").toList) } }] })]
      (("f").toList) =
    ReplayOutcome.ran ((replayWrap) ++ ("B").toList) := by decide
example :
    (convertToBrowserUseActions
      [CapturedEvent.navigation (("u").toList), CapturedEvent.click [],
       CapturedEvent.input (("v").toList)]).length = 3 := by decide


/-! ## Basic lemmas about the dictionary and string primitives -/

theorem lookupBy_dictSet_self (d : Dict) (k v : Str) :
    lookupBy (dictSet d k v) k = some v := by
  induction d with
  | nil => simp [dictSet, lookupBy]
  | cons hd tl ih =>
    obtain ⟨k2, v2⟩ := hd
    by_cases h : k2 = k
    · simp [dictSet, h, lookupBy]
    · simp [dictSet, h, lookupBy, ih]

theorem lookupBy_dictSet_ne (d : Dict) (k v k2 : Str) (h : k2 ≠ k) :
    lookupBy (dictSet d k v) k2 = lookupBy d k2 :=  by
  induction d with
  | nil => simp [dictSet, lookupBy, Ne.symm h]
  | cons hd tl ih =>
    obtain ⟨k3, v3⟩ := hd
    by_cases hk : k3 = k
    · subst hk
      simp [dictSet, lookupBy, Ne.symm h]
    · simp only [dictSet, if_neg hk, lookupBy]
      by_cases hq : k3 = k2 <;> simp [hq, ih]

theorem dictSet_ne_nil (d : Dict) (k v : Str) : dictSet d k v ≠ [] := by
  cases d with
  | nil => simp [dictSet]
  | cons hd tl =>
    obtain ⟨k2, v2⟩ := hd
    by_cases h : k2 = k <;> simp [dictSet, h]

theorem mem_keysOf_dictSet (d : Dict) (k v a : Str)
    (h : a ∈ keysOf (dictSet d k v)) : a ∈ keysOf d ∨ a = k := by
  induction d with
  | nil =>
    simp [dictSet, keysOf] at h
    exact Or.inr h
  | cons hd tl ih =>
    obtain ⟨k2, v2⟩ := hd
    by_cases hk : k2 = k
    · subst hk
      simp [dictSet, keysOf] at h ⊢
      tauto
    · simp only [dictSet, if_neg hk, keysOf, List.map_cons, List.mem_cons] at h
      rcases h with h | h
      · exact Or.inl (by simp [keysOf, h])
      · rcases ih h with h2 | h2
        · exact Or.inl (by simp [keysOf] at h2 ⊢; tauto)
        · exact Or.inr h2

theorem keysOf_dictSet_nodup (d : Dict) (k v : Str) (h : (keysOf d).Nodup) :
    (keysOf (dictSet d k v)).Nodup := by
  induction d with
  | nil => simp [dictSet, keysOf]
  | cons hd tl ih =>
    obtain ⟨k2, v2⟩ := hd
    simp only [keysOf, List.map_cons, List.nodup_cons] at h
    by_cases hk : k2 = k
    · subst hk
      simpa [dictSet, keysOf, List.nodup_cons] using h
    · simp only [dictSet, if_neg hk, keysOf, List.map_cons, List.nodup_cons]
      refine ⟨fun hmem => ?_, ih h.2⟩
      rcases mem_keysOf_dictSet tl k v k2 hmem with h2 | h2
      · exact h.1 (by simpa [keysOf] using h2)
      · exact hk h2

theorem lookupBy_eq_of_mem_nodup (d : Dict) (k v : Str)
    (hnd : (keysOf d).Nodup) (hmem : (k, v) ∈ d) : lookupBy d k = some v := by
  induction d with
  | nil => simp at hmem
  | cons hd tl ih =>
    obtain ⟨k2, v2⟩ := hd
    simp only [keysOf, List.map_cons, List.nodup_cons] at hnd
    rcases List.mem_cons.mp hmem with h | h
    · obtain ⟨h1, h2⟩ := Prod.mk.injEq .. ▸ h
      simp [lookupBy, h1.symm, h2]
    · have hne : k2 ≠ k := by
        intro he
        subst he
        exact hnd.1 (by simp [keysOf]; exact ⟨v, h⟩)
      simp [lookupBy, hne, ih hnd.2 h]

theorem optOr_none_right (a : Option Str) : optOr a none = a := by
  cases a <;> rfl

theorem optOr_assoc (a b c : Option Str) :
    optOr (optOr a b) c = optOr a (optOr b c) := by
  cases a <;> rfl

theorem optOr_eq_none (a b : Option Str) (h : optOr a b = none) :
    a = none ∧ b = none := by
  cases a with
  | some v => simp [optOr] at h
  | none => exact ⟨rfl, h⟩

theorem strIn_iff (needle : Str) : ∀ hay : Str, strIn needle hay = true ↔ needle <:+: hay := by
  intro hay
  induction hay with
  | nil => simp [strIn, List.isEmpty_iff, List.infix_nil]
  | cons c rest ih =>
    simp only [strIn, Bool.or_eq_true, List.isPrefixOf_iff_prefix, ih,
      List.infix_cons_iff]

theorem toLowerL_mono (needle hay : Str) (h : needle <:+: hay) :
    toLowerL needle <:+: toLowerL hay := h.map Char.toLower

theorem pySplitAux_ne_nil (sep : Str) : ∀ (fuel : Nat) (s : Str),
    pySplitAux sep fuel s ≠ [] := by
  intro fuel
  induction fuel with
  | zero => intro s; simp [pySplitAux]
  | succ fuel ih =>
    intro s
    simp only [pySplitAux]
    split
    · simp
    · cases s with
      | nil => simp
      | cons c rest =>
        show consHead c (pySplitAux sep fuel rest) ≠ []
        cases hsp : pySplitAux sep fuel rest with
        | nil => exact absurd hsp (ih rest)
        | cons p ps => simp [consHead]

theorem pySplitAux_no_occurrence (sep : Str) : ∀ (fuel : Nat) (s : Str),
    ¬ (sep <:+: s) → pySplitAux sep fuel s = [s] := by
  intro fuel
  induction fuel with
  | zero => intro s _; rfl
  | succ fuel ih =>
    intro s hni
    simp only [pySplitAux]
    rw [if_neg (fun hc => hni (isPrefixOf_eq_iff.mp hc.1).isInfix)]
    cases s with
    | nil => rfl
    | cons c rest =>
      show consHead c (pySplitAux sep fuel rest) = [c :: rest]
      rw [ih rest (fun hr => hni (List.infix_cons hr))]
      rfl

theorem infix_of_pySplit_length (sep s : Str) (h : (pySplit s sep).length > 1) :
    sep <:+: s := by
  by_contra hni
  rw [pySplit, pySplitAux_no_occurrence sep (s.length + 1) s hni] at h
  simp at h

theorem pyReplaceAux_self (x : Str) : ∀ (fuel : Nat) (s : Str),
    pyReplaceAux x x fuel s = s := by
  intro fuel
  induction fuel with
  | zero => intro s; rfl
  | succ fuel ih =>
    intro s
    cases x with
    | nil =>
      cases s with
      | nil => rfl
      | cons c rest =>
        show ([] : Str) ++ c :: pyReplaceAux [] [] fuel rest = c :: rest
        rw [ih]
        rfl
    | cons o os =>
      show (if (o :: os).isPrefixOf s then
              (o :: os) ++ pyReplaceAux (o :: os) (o :: os) fuel (s.drop (o :: os).length)
            else
              match s with
              | [] => []
              | c :: rest => c :: pyReplaceAux (o :: os) (o :: os) fuel rest) = s
      by_cases hpre : (o :: os).isPrefixOf s
      · rw [if_pos hpre, ih]
        obtain ⟨t, ht⟩ := isPrefixOf_eq_iff.mp hpre
        rw [← ht, List.drop_left]
      · rw [if_neg hpre]
        cases s with
        | nil => rfl
        | cons c rest =>
          show c :: pyReplaceAux (o :: os) (o :: os) fuel rest = c :: rest
          rw [ih]

theorem pyReplace_self (s x : Str) : pyReplace s x x = s := pyReplaceAux_self x (s.length + 1) s

theorem joinWith_consHead (sep : Str) (c : Char) (L : List Str) (h : L ≠ []) :
    joinWith sep (consHead c L) = c :: joinWith sep L := by
  match L with
  | [] => exact absurd rfl h
  | [p] => rfl
  | p :: q :: ps => simp [consHead, joinWith]

theorem joinWith_nil_cons (sep : Str) (L : List Str) (h : L ≠ []) :
    joinWith sep ([] :: L) = sep ++ joinWith sep L := by
  match L with
  | [] => exact absurd rfl h
  | p :: ps => simp [joinWith]

theorem pyReplaceAux_eq_joinWith (o : Char) (os new : Str) :
    ∀ (fuel : Nat) (s : Str),
    pyReplaceAux (o :: os) new fuel s = joinWith new (pySplitAux (o :: os) fuel s) := by
  intro fuel
  induction fuel with
  | zero => intro s; rfl
  | succ fuel ih =>
    intro s
    show (if (o :: os).isPrefixOf s then
            new ++ pyReplaceAux (o :: os) new fuel (s.drop (o :: os).length)
          else
            match s with
            | [] => []
            | c :: rest => c :: pyReplaceAux (o :: os) new fuel rest) =
        joinWith new (pySplitAux (o :: os) (fuel + 1) s)
    simp only [pySplitAux]
    by_cases hpre : (o :: os).isPrefixOf s
    · rw [if_pos hpre, if_pos ⟨hpre, by simp⟩]
      show new ++ pyReplaceAux (o :: os) new fuel (s.drop (o :: os).length) =
          joinWith new ([] :: pySplitAux (o :: os) fuel (s.drop (o :: os).length))
      rw [ih, joinWith_nil_cons new _
        (pySplitAux_ne_nil (o :: os) fuel (s.drop (o :: os).length))]
    · rw [if_neg hpre, if_neg (fun hc => hpre hc.1)]
      cases s with
      | nil => rfl
      | cons c rest =>
        show c :: pyReplaceAux (o :: os) new fuel rest =
            joinWith new (consHead c (pySplitAux (o :: os) fuel rest))
        rw [ih, joinWith_consHead new c _ (pySplitAux_ne_nil (o :: os) fuel rest)]

theorem pyReplace_eq_joinWith_pySplit (s old new : Str) (h : old ≠ []) :
    pyReplace s old new = joinWith new (pySplit s old) := by
  match old with
  | o :: os => exact pyReplaceAux_eq_joinWith o os new (s.length + 1) s

theorem pyReplace_nil (old new : Str) (h : old ≠ []) : pyReplace [] old new = [] := by
  match old with
  | o :: os =>
    show (if (o :: os).isPrefixOf [] then
            new ++ pyReplaceAux (o :: os) new 0 (List.drop (o :: os).length [])
          else
            match ([] : Str) with
            | [] => []
            | c :: rest => c :: pyReplaceAux (o :: os) new 0 rest) = []
    rw [if_neg (by simp [List.isPrefixOf])]

/-! ## Lemmas characterizing the Strategy B scan -/

theorem lookupBy_scanGo_w (d : Dict) (ty : Str) (ap : ActionParams) :
    lookupBy (scanGo d ty ap) wkey = optOr (websiteOf (ty, ap)) (lookupBy d wkey) := by
  simp only [scanGo, websiteOf, hostOf]
  by_cases hty : ty = goKey
  · simp only [hty, if_pos rfl]
    cases ap.url with
    | none => simp [optOr]
    | some url =>
      by_cases hsch : strIn schemeStr url
      · simp only [hsch, if_pos rfl]
        by_cases hwww : wwwStr.isPrefixOf (domainOf url)
        · simp [hwww, lookupBy_dictSet_self, optOr]
        · simp [hwww, lookupBy_dictSet_self, optOr]
      · simp [hsch, optOr]
  · simp [hty, optOr]

theorem lookupBy_scanGo_s (d : Dict) (ty : Str) (ap : ActionParams) :
    lookupBy (scanGo d ty ap) skey = lookupBy d skey := by
  have hne : skey ≠ wkey := by decide
  simp only [scanGo]
  by_cases hty : ty = goKey
  · simp only [hty, if_pos rfl]
    cases ap.url with
    | none => rfl
    | some url =>
      by_cases hsch : strIn schemeStr url
      · simp only [hsch, if_pos rfl]
        by_cases hwww : wwwStr.isPrefixOf (domainOf url)
        · simp [hwww, lookupBy_dictSet_ne _ _ _ _ hne]
        · simp [hwww, lookupBy_dictSet_ne _ _ _ _ hne]
      · simp [hsch]
  · simp [hty]

theorem lookupBy_scanInput_s (d : Dict) (ty : Str) (ap : ActionParams) :
    lookupBy (scanInput d ty ap) skey = optOr (searchOf (ty, ap)) (lookupBy d skey) := by
  simp only [scanInput, searchOf]
  by_cases hty : ty = inKey
  · simp only [hty, if_pos rfl]
    cases ap.text with
    | none => simp [optOr]
    | some text =>
      by_cases hst : (pyStrip text).length > 0
      · simp [hst, lookupBy_dictSet_self, optOr]
      · simp [hst, optOr]
  · simp [hty, optOr]

theorem lookupBy_scanInput_w (d : Dict) (ty : Str) (ap : ActionParams) :
    lookupBy (scanInput d ty ap) wkey = lookupBy d wkey := by
  have hne : wkey ≠ skey := by decide
  simp only [scanInput]
  by_cases hty : ty = inKey
  · simp only [hty, if_pos rfl]
    cases ap.text with
    | none => rfl
    | some text =>
      by_cases hst : (pyStrip text).length > 0
      · simp [hst, lookupBy_dictSet_ne _ _ _ _ hne]
      · simp [hst]
  · simp [hty]

theorem lookupBy_scanItem_w (d : Dict) (it : Str × ActionParams) :
    lookupBy (scanItem d it) wkey = optOr (websiteOf it) (lookupBy d wkey) := by
  obtain ⟨ty, ap⟩ := it
  rw [scanItem, lookupBy_scanInput_w, lookupBy_scanGo_w]

theorem lookupBy_scanItem_s (d : Dict) (it : Str × ActionParams) :
    lookupBy (scanItem d it) skey = optOr (searchOf it) (lookupBy d skey) := by
  obtain ⟨ty, ap⟩ := it
  rw [scanItem, lookupBy_scanInput_s, lookupBy_scanGo_s]

theorem foldl_optOr {α : Type} (f : α → Option Str) :
    ∀ (l : List α) (a : Option Str),
    l.foldl (fun acc x => optOr (f x) acc) a =
      optOr (l.foldl (fun acc x => optOr (f x) acc) none) a := by
  intro l
  induction l with
  | nil => intro a; rfl
  | cons x xs ih =>
    intro a
    simp only [List.foldl_cons]
    rw [ih (optOr (f x) a), ih (optOr (f x) none), optOr_assoc, optOr_assoc]
    rfl

theorem fold_scan_w : ∀ (items : List (Str × ActionParams)) (d : Dict),
    lookupBy (items.foldl scanItem d) wkey = optOr (lastWebsite items) (lookupBy d wkey) := by
  intro items
  induction items with
  | nil => intro d; rfl
  | cons it rest ih =>
    intro d
    simp only [List.foldl_cons, lastWebsite]
    rw [ih, lookupBy_scanItem_w, foldl_optOr (fun it => websiteOf it) rest (optOr (websiteOf it) none)]
    rw [optOr_assoc, optOr_none_right]
    rfl

theorem fold_scan_s : ∀ (items : List (Str × ActionParams)) (d : Dict),
    lookupBy (items.foldl scanItem d) skey = optOr (lastSearch items) (lookupBy d skey) := by
  intro items
  induction items with
  | nil => intro d; rfl
  | cons it rest ih =>
    intro d
    simp only [List.foldl_cons, lastSearch]
    rw [ih, lookupBy_scanItem_s, foldl_optOr (fun it => searchOf it) rest (optOr (searchOf it) none)]
    rw [optOr_assoc, optOr_none_right]
    rfl

theorem scanGo_id (d : Dict) (ty : Str) (ap : ActionParams)
    (h : websiteOf (ty, ap) = none) : scanGo d ty ap = d := by
  simp only [websiteOf] at h
  simp only [scanGo]
  by_cases hty : ty = goKey
  · simp only [hty, if_pos rfl] at h ⊢
    cases hu : ap.url with
    | none => simp [hu]
    | some url =>
      simp only [hu] at h ⊢
      by_cases hsch : strIn schemeStr url
      · simp [hsch] at h
      · simp [hsch]
  · simp [hty]

theorem scanInput_id (d : Dict) (ty : Str) (ap : ActionParams)
    (h : searchOf (ty, ap) = none) : scanInput d ty ap = d := by
  simp only [searchOf] at h
  simp only [scanInput]
  by_cases hty : ty = inKey
  · simp only [hty, if_pos rfl] at h ⊢
    cases hu : ap.text with
    | none => simp [hu]
    | some text =>
      simp only [hu] at h ⊢
      by_cases hst : (pyStrip text).length > 0
      · simp [hst] at h
      · simp [hst]
  · simp [hty]

theorem scanItem_id (d : Dict) (it : Str × ActionParams)
    (h1 : websiteOf it = none) (h2 : searchOf it = none) : scanItem d it = d := by
  obtain ⟨ty, ap⟩ := it
  rw [scanItem, scanGo_id _ _ _ h1, scanInput_id _ _ _ h2]

theorem fold_scan_id : ∀ (items : List (Str × ActionParams)) (d : Dict),
    (∀ it ∈ items, websiteOf it = none) → (∀ it ∈ items, searchOf it = none) →
    items.foldl scanItem d = d := by
  intro items
  induction items with
  | nil => intro d _ _; rfl
  | cons x xs ih =>
    intro d h1 h2
    simp only [List.foldl_cons]
    rw [scanItem_id d x (h1 x (by simp)) (h2 x (by simp))]
    exact ih d (fun it hm => h1 it (by simp [hm])) (fun it hm => h2 it (by simp [hm]))

theorem lastWebsite_none : ∀ (items : List (Str × ActionParams)),
    lastWebsite items = none → ∀ it ∈ items, websiteOf it = none := by
  intro items
  induction items with
  | nil => simp
  | cons x xs ih =>
    intro h it hmem
    rw [lastWebsite, List.foldl_cons,
      foldl_optOr (fun it => websiteOf it) xs (optOr (websiteOf x) none)] at h
    obtain ⟨h1, h2⟩ := optOr_eq_none _ _ h
    rcases List.mem_cons.mp hmem with rfl | hmem2
    · exact (optOr_eq_none _ _ h2).1
    · exact ih h1 it hmem2

theorem lastSearch_none : ∀ (items : List (Str × ActionParams)),
    lastSearch items = none → ∀ it ∈ items, searchOf it = none := by
  intro items
  induction items with
  | nil => simp
  | cons x xs ih =>
    intro h it hmem
    rw [lastSearch, List.foldl_cons,
      foldl_optOr (fun it => searchOf it) xs (optOr (searchOf x) none)] at h
    obtain ⟨h1, h2⟩ := optOr_eq_none _ _ h
    rcases List.mem_cons.mp hmem with rfl | hmem2
    · exact (optOr_eq_none _ _ h2).1
    · exact ih h1 it hmem2

theorem foldl_flatten_eq {α β : Type} (f : β → α → β) :
    ∀ (L : List (List α)) (d : β),
    (L.flatten).foldl f d = L.foldl (fun p l => l.foldl f p) d := by
  intro L
  induction L with
  | nil => intro d; rfl
  | cons l ls ih =>
    intro d
    simp only [List.flatten_cons, List.foldl_append, List.foldl_cons, ih]

theorem extractFromHistory_eq (history : List Step) :
    extractFromHistory history = (historyItems history).foldl scanItem [] := by
  rw [extractFromHistory, historyItems, foldl_flatten_eq, List.foldl_map]
  have h : (fun (params : Dict) step =>
      (stepActions step).foldl (fun params action => action.foldl scanItem params) params) =
      (fun (p : Dict) st => (itemsOfStep st).foldl scanItem p) := by
    funext p st
    rw [itemsOfStep, foldl_flatten_eq]
  rw [h]

theorem convertEvent_fst (n : Nat) (e : CapturedEvent) :
    (convertEvent n e).1 = eventKey e := by
  cases e <;> rfl

theorem convertAux_eq : ∀ (events : List CapturedEvent) (acc : List ActionInv),
    convertAux events acc = acc ++ convertFrom acc.length events := by
  intro events
  induction events with
  | nil => intro acc; simp [convertAux, convertFrom]
  | cons e rest ih =>
    intro acc
    rw [convertAux, ih, convertFrom]
    simp

theorem convert_eq (events : List CapturedEvent) :
    convertToBrowserUseActions events = convertFrom 0 events := by
  have h := convertAux_eq events []
  simpa [convertToBrowserUseActions] using h

theorem convertFrom_length : ∀ (events : List CapturedEvent) (j : Nat),
    (convertFrom j events).length = events.length := by
  intro events
  induction events with
  | nil => intro j; rfl
  | cons e rest ih => intro j; simp [convertFrom, ih]

theorem convertFrom_get : ∀ (events : List CapturedEvent) (j i : Nat),
    (convertFrom j events)[i]? = (events[i]?).map (fun e => [convertEvent (j + i) e]) := by
  intro events
  induction events with
  | nil => intro j i; simp [convertFrom]
  | cons e rest ih =>
    intro j i
    cases i with
    | zero => simp [convertFrom]
    | succ i =>
      simp only [convertFrom, List.getElem?_cons_succ]
      rw [ih (j + 1) i, show j + 1 + i = j + (i + 1) from by omega]

theorem buildHistory_length : ∀ (l : List ActionInv) (total j : Nat),
    (buildHistory total j l).length = l.length := by
  intro l
  induction l with
  | nil => intro total j; rfl
  | cons a rest ih => intro total j; simp [buildHistory, ih]

theorem buildHistory_get : ∀ (l : List ActionInv) (total j i : Nat),
    (buildHistory total j l)[i]? = (l[i]?).map (fun a => mkManualStep total (j + i) a) := by
  intro l
  induction l with
  | nil => intro total j i; simp [buildHistory]
  | cons a rest ih =>
    intro total j i
    cases i with
    | zero => simp [buildHistory]
    | succ i =>
      simp only [buildHistory, List.getElem?_cons_succ]
      rw [ih total (j + 1) i, show j + 1 + i = j + (i + 1) from by omega]

/-! ## Support lemmas for the Strategy A and substitution theorems -/

theorem findWebsite_eq (lower w : Str) : ∀ (L : List Str), w ∈ L → strIn w lower = true →
    (∀ w2 ∈ L, strIn w2 lower = true → w2 = w) → findWebsite lower L = some w := by
  intro L
  induction L with
  | nil => intro h; simp at h
  | cons x xs ih =>
    intro hmem hin huniq
    by_cases hx : strIn x lower
    · have hxw : x = w := huniq x (by simp) hx
      subst hxw
      simp [findWebsite, hx]
    · have hmem2 : w ∈ xs := by
        rcases List.mem_cons.mp hmem with rfl | h2
        · exact absurd hin hx
        · exact h2
      simp only [findWebsite, hx, Bool.false_eq_true, if_false]
      exact ih hmem2 hin (fun w2 hm2 hi2 => huniq w2 (by simp [hm2]) hi2)

theorem extract_keys_nodup (t : Str) : (keysOf (extractParametersFromTask t)).Nodup := by
  cases hfw : findWebsite (toLowerL t) websites with
  | some w =>
    simp only [extractParametersFromTask, hfw]
    split
    · split
      · exact keysOf_dictSet_nodup _ _ _ (by simp [dictSet, keysOf])
      · simp [dictSet, keysOf]
    · simp [dictSet, keysOf]
  | none =>
    simp only [extractParametersFromTask, hfw]
    split
    · split
      · exact keysOf_dictSet_nodup _ _ _ (by simp [keysOf])
      · simp [keysOf]
    · simp [keysOf]

theorem substitute_step_id (T : Str) (op : Dict) (p : Str × Str)
    (h : lookupBy op p.1 = some p.2 ∨ lookupBy op p.1 = none) :
    (if p.1 = wkey ∧ (lookupBy op p.1).isSome then
        pyReplace T ((lookupBy op p.1).getD []) p.2
      else if p.1 = skey ∧ (lookupBy op p.1).isSome then
        pyReplace T ((lookupBy op p.1).getD []) p.2
      else T) = T := by
  rcases h with h | h
  · rw [h]
    split
    · simp [pyReplace_self]
    · split
      · simp [pyReplace_self]
      · rfl
  · rw [h]
    simp

theorem substitute_id (op : Dict) : ∀ (nv : Dict) (T : Str),
    (∀ p ∈ nv, lookupBy op p.1 = some p.2 ∨ lookupBy op p.1 = none) →
    substituteParametersInTask T nv op = T := by
  intro nv
  induction nv with
  | nil => intro T _; rfl
  | cons p rest ih =>
    intro T h
    simp only [substituteParametersInTask, List.foldl_cons]
    rw [substitute_step_id T op p (h p (by simp))]
    exact ih T (fun q hq => h q (by simp [hq]))

theorem substitute_step_skip (T : Str) (op : Dict) (p : Str × Str)
    (h : (p.1 ≠ wkey ∧ p.1 ≠ skey) ∨ lookupBy op p.1 = none) :
    (if p.1 = wkey ∧ (lookupBy op p.1).isSome then
        pyReplace T ((lookupBy op p.1).getD []) p.2
      else if p.1 = skey ∧ (lookupBy op p.1).isSome then
        pyReplace T ((lookupBy op p.1).getD []) p.2
      else T) = T := by
  rcases h with ⟨h1, h2⟩ | h
  · rw [if_neg (fun hc => h1 hc.1), if_neg (fun hc => h2 hc.1)]
  · rw [h]
    simp

theorem substitute_skip (op : Dict) : ∀ (nv : Dict) (T : Str),
    (∀ p ∈ nv, (p.1 ≠ wkey ∧ p.1 ≠ skey) ∨ lookupBy op p.1 = none) →
    substituteParametersInTask T nv op = T := by
  intro nv
  induction nv with
  | nil => intro T _; rfl
  | cons p rest ih =>
    intro T h
    simp only [substituteParametersInTask, List.foldl_cons]
    rw [substitute_step_skip T op p (h p (by simp))]
    exact ih T (fun q hq => h q (by simp [hq]))

/-! ## Claim theorems -/

/-- Claim C1 (counterexample).  The claim says Strategy A extraction, for a
task with exactly one known website substring and the phrase "search for"
(both matched against the lower-cased text), returns the website default
taken from the original-case source text at the matched span, together with a
search term.  On the task "Search for cats on GITHUB.COM" the code instead
stores the lower-case candidate string itself as the website default, and
produces no search term at all, because `task.split("search for")` is
case-sensitive while the guard matched against the lower-cased text. -/
theorem C1_counterexample :
    extractParametersFromTask (("Search for cats on GITHUB.COM").toList) =
      [(wkey, ("github.com").toList)] ∧
    lookupBy (extractParametersFromTask (("Search for cats on GITHUB.COM").toList)) wkey ≠
      some (("GITHUB.COM").toList) ∧
    lookupBy (extractParametersFromTask (("Search for cats on GITHUB.COM").toList)) skey =
      none := by
  decide

/-- Claim C1 (amended).  For every task whose lower-casing contains exactly
one known website substring `w`, and which splits on the literal,
case-sensitive phrase "search for" into exactly two parts `pre` and `suf`,
Strategy A returns `website` bound to the lower-case candidate `w` itself and
`search_term` bound to `suf` whitespace-trimmed with every occurrence of
" on google" and " on bing" removed. -/
theorem C1_strategyA_extraction (task pre suf w : Str)
    (hw : w ∈ websites)
    (hinf : strIn w (toLowerL task) = true)
    (huniq : ∀ w2 ∈ websites, strIn w2 (toLowerL task) = true → w2 = w)
    (hsplit : pySplit task sepStr = [pre, suf]) :
    extractParametersFromTask task =
      [(wkey, w), (skey, pyReplace (pyReplace (pyStrip suf) ogStr []) obStr [])] := by
  have hfw := findWebsite_eq (toLowerL task) w websites hw hinf huniq
  have hinfT : sepStr <:+: task :=
    infix_of_pySplit_length sepStr task (by rw [hsplit]; simp)
  have heq : toLowerL sepStr = sepStr := by decide
  have hlow : strIn sepStr (toLowerL task) = true :=
    (strIn_iff _ _).mpr (heq ▸ toLowerL_mono _ _ hinfT)
  have hne : ¬ (wkey = skey) := by decide
  simp only [extractParametersFromTask, hfw, hlow, if_true, hsplit]
  simp [dictSet, hne]

/-- Claim C1 witness: the amended theorem applied to the concrete task
"search for dogs on github.com". -/
theorem C1_witness :
    extractParametersFromTask (("search for dogs on github.com").toList) =
      [(wkey, ("github.com").toList), (skey, ("dogs on github.com").toList)] := by
  rw [C1_strategyA_extraction (("search for dogs on github.com").toList) []
    ((" dogs on github.com").toList) (("github.com").toList)
    (by decide) (by decide) (by decide) (by decide)]
  decide

/-- Claim C2 (counterexample).  The claim says the fallback website parameter
is the host of the last `go_to_url` action in step order.  In this flow the
last `go_to_url` URL is "nohost" (no scheme separator), which the code skips
entirely, leaving the host of the earlier URL. -/
theorem C2_counterexample :
    lookupBy (extractParametersFromFlow
      { original_user_task := none,
        history :=
          [{ model_output := some { action :=
              [[(goKey, { url := some (("https://www.example.com/x").toList) })]] } },
           { model_output := some { action :=
              [[(goKey, { url := some (("nohost").toList) })]] } }] }) wkey =
      some (("example.com").toList) ∧
    lookupBy (extractParametersFromFlow
      { original_user_task := none,
        history :=
          [{ model_output := some { action :=
              [[(goKey, { url := some (("https://www.example.com/x").toList) })]] } },
           { model_output := some { action :=
              [[(goKey, { url := some (("nohost").toList) })]] } }] }) wkey ≠
      some (("nohost").toList) := by
  decide

/-- Claim C2 (amended).  Strategy A on a present, non-empty original task
wins whenever it yields a non-empty parameter set; otherwise the action
history is scanned, where `website` is the host of the last `go_to_url`
action whose URL contains "://" and `search_term` is the text of the last
`input_text` action that is non-blank after trimming; with no matching
actions the result is empty. -/
theorem C2_extraction_strategy (flow : FlowDoc) :
    (∀ t, flow.original_user_task = some t → t ≠ [] →
        extractParametersFromTask t ≠ [] →
        extractParametersFromFlow flow = extractParametersFromTask t) ∧
    ((∀ t, flow.original_user_task = some t → extractParametersFromTask t = []) →
        lookupBy (extractParametersFromFlow flow) wkey = websiteFromHistory flow.history ∧
        lookupBy (extractParametersFromFlow flow) skey = searchFromHistory flow.history ∧
        (websiteFromHistory flow.history = none → searchFromHistory flow.history = none →
          extractParametersFromFlow flow = [])) := by
  constructor
  · intro t ht hne hpe
    simp only [extractParametersFromFlow, ht]
    rw [if_neg hne, if_pos hpe]
  · intro h
    have hvia : (match flow.original_user_task with
        | some t => if t = [] then [] else extractParametersFromTask t
        | none => []) = ([] : Dict) := by
      cases hta : flow.original_user_task with
      | none => rfl
      | some t =>
        by_cases ht : t = []
        · simp [ht]
        · simp [ht, h t hta]
    simp only [extractParametersFromFlow]
    rw [hvia]
    simp only [ne_eq, not_true_eq_false, if_false]
    rw [extractFromHistory_eq]
    refine ⟨?_, ?_, ?_⟩
    · rw [fold_scan_w, websiteFromHistory]
      exact optOr_none_right _
    · rw [fold_scan_s, searchFromHistory]
      exact optOr_none_right _
    · intro hw hs
      rw [websiteFromHistory] at hw
      rw [searchFromHistory] at hs
      exact fold_scan_id _ _ (lastWebsite_none _ hw) (lastSearch_none _ hs)

/-- Claim C2 witness: the amended theorem applied to a concrete flow with no
original task and a two-step history. -/
theorem C2_witness :
    lookupBy (extractParametersFromFlow
      { original_user_task := none,
        history :=
          [{ model_output := some { action :=
              [[(goKey, { url := some (("https://www.example.com/x").toList) })]] } },
           { model_output := some { action :=
              [[(inKey, { text := some (("hello").toList) })]] } }] }) wkey =
      websiteFromHistory
        [{ model_output := some { action :=
            [[(goKey, { url := some (("https://www.example.com/x").toList) })]] } },
         { model_output := some { action :=
            [[(inKey, { text := some (("hello").toList) })]] } }] := by
  have h := (C2_extraction_strategy
    { original_user_task := none,
      history :=
        [{ model_output := some { action :=
            [[(goKey, { url := some (("https://www.example.com/x").toList) })]] } },
         { model_output := some { action :=
            [[(inKey, { text := some (("hello").toList) })]] } }] }).2
    (fun t ht => by simp at ht)
  exact h.1

/-- Claim C3 (confirmed).  The substitution engine: (1) every entry whose name
is neither "website" nor "search_term" is silently skipped; (2) every entry
whose name is absent from the original parameters is silently skipped; (3) a
recognized, present entry performs a literal non-regex replace-all of the old
value (expressed as split-on-old joined with the new value); (4) entries are
processed sequentially in insertion order.  Mutation of the input is
impossible in this purely functional embedding. -/
theorem C3_substitution_contract (task : Str) (nv op : Dict) :
    ((∀ p ∈ nv, p.1 ≠ wkey ∧ p.1 ≠ skey) → substituteParametersInTask task nv op = task) ∧
    ((∀ p ∈ nv, lookupBy op p.1 = none) → substituteParametersInTask task nv op = task) ∧
    (∀ name v old, (name = wkey ∨ name = skey) → lookupBy op name = some old → old ≠ [] →
      substituteParametersInTask task [(name, v)] op = joinWith v (pySplit task old)) ∧
    (∀ p rest, substituteParametersInTask task (p :: rest) op =
      substituteParametersInTask (substituteParametersInTask task [p] op) rest op) := by
  refine ⟨?_, ?_, ?_, ?_⟩
  · intro h
    exact substitute_skip op nv task (fun p hp => Or.inl (h p hp))
  · intro h
    exact substitute_skip op nv task (fun p hp => Or.inr (h p hp))
  · intro name v old hrec hl hold
    simp only [substituteParametersInTask, List.foldl_cons, List.foldl_nil]
    rcases hrec with rfl | rfl
    · rw [if_pos ⟨rfl, by simp [hl]⟩, hl]
      exact pyReplace_eq_joinWith_pySplit task old v hold
    · rw [if_neg (fun hc => (by decide : ¬ (skey = wkey)) hc.1),
        if_pos ⟨rfl, by simp [hl]⟩, hl]
      exact pyReplace_eq_joinWith_pySplit task old v hold
  · intro p rest
    rfl

/-- Claim C3 witness: conjunct (3) applied to a concrete substitution. -/
theorem C3_witness :
    substituteParametersInTask (("search for cats").toList)
      [(skey, ("dogs").toList)] [(skey, ("cats").toList)] =
    joinWith (("dogs").toList)
      (pySplit (("search for cats").toList) (("cats").toList)) :=
  (C3_substitution_contract (("search for cats").toList)
      [(skey, ("dogs").toList)] [(skey, ("cats").toList)]).2.2.1
    skey (("dogs").toList) (("cats").toList) (Or.inr rfl) (by decide) (by decide)

/-- Claim C4 (counterexample).  The claim says the extracted term for
"search for cats on google.com" stays "cats on google.com" because
" on google" is not an exact suffix of it.  The code removes " on google" as
a substring anywhere, so the term becomes "cats.com". -/
theorem C4_counterexample :
    lookupBy (extractParametersFromTask (("search for cats on google.com").toList)) skey ≠
      some (("cats on google.com").toList) := by
  decide

/-- Claim C4 (amended).  On "search for cats on google.com" extraction yields
website "google.com" and search term "cats.com": the substring " on google"
is removed wherever it occurs, not only as an exact suffix. -/
theorem C4_concrete_extraction :
    extractParametersFromTask (("search for cats on google.com").toList) =
      [(wkey, ("google.com").toList), (skey, ("cats.com").toList)] := by
  decide

/-- Claim C5 (counterexample).  The claim says literal replay derives the
task from `original_user_task` when that field is present.  In this store the
flow has `original_user_task` "A" but the first step's thinking "B"; the task
handed to the agent wraps "B", not "A": `replay_flow` never consults
`original_user_task`. -/
theorem C5_counterexample :
    replayFlow
      [((("f").toList),
        { original_user_task := some (("A").toList),
          history := [{ model_output := some { thinking := some (("B").toList) } }] })]
      (("f").toList) ≠
      ReplayOutcome.ran (replayWrap ++ ("A").toList) ∧
    replayFlow
      [((("f").toList),
        { original_user_task := some (("A").toList),
          history := [{ model_output := some { thinking := some (("B").toList) } }] })]
      (("f").toList) =
      ReplayOutcome.ran (replayWrap ++ ("B").toList) := by
  decide

/-- Claim C5 (amended).  For every stored flow with non-empty history,
literal replay hands the agent "Replay this flow: " followed by the first
step's `model_output.thinking`, or the placeholder "Replay saved flow" when
that rationale is absent; `original_user_task` plays no role. -/
theorem C5_literal_replay_task (store : FlowStore) (name : Str) (flow : FlowDoc)
    (first : Step) (rest : List Step)
    (h1 : lookupBy store name = some flow) (h2 : flow.history = first :: rest) :
    replayFlow store name = ReplayOutcome.ran (replayWrap ++ fallbackTaskOf first) := by
  simp only [replayFlow, h1, h2]

/-- Claim C5 witness: the amended theorem applied to a concrete store. -/
theorem C5_witness :
    replayFlow
      [((("g").toList),
        { original_user_task := some (("A").toList),
          history := [{ model_output := some { thinking := some (("C").toList) } }] })]
      (("g").toList) =
      ReplayOutcome.ran (replayWrap ++ ("C").toList) := by
  rw [C5_literal_replay_task
    [((("g").toList),
      { original_user_task := some (("A").toList),
        history := [{ model_output := some { thinking := some (("C").toList) } }] })]
    (("g").toList)
    { original_user_task := some (("A").toList),
      history := [{ model_output := some { thinking := some (("C").toList) } }] }
    { model_output := some { thinking := some (("C").toList) } } [] rfl rfl]
  decide

/-- Claim C6 (confirmed).  For a missing flow name both replay drivers report
not-found; for a stored flow whose history is empty both report the
empty-history error.  In each case the outcome is not `ran`, so the agent
executor is never invoked, and the drivers perform no store write anywhere in
the source. -/
theorem C6_replay_guards (store : FlowStore) (name : Str) (inputs : Str → Str) :
    (lookupBy store name = none →
      replayFlow store name = ReplayOutcome.notFound ∧
      replayFlowWithParams store name inputs = ParamReplayOutcome.notFound) ∧
    (∀ flow, lookupBy store name = some flow → flow.history = [] →
      replayFlow store name = ReplayOutcome.emptyHistory ∧
      replayFlowWithParams store name inputs = ParamReplayOutcome.emptyHistory) := by
  constructor
  · intro h
    constructor
    · simp only [replayFlow, h]
    · simp only [replayFlowWithParams, h]
  · intro flow hf hh
    constructor
    · simp only [replayFlow, hf, hh]
    · simp only [replayFlowWithParams, hf, hh]

/-- Claim C6 witness: both guards at concrete stores. -/
theorem C6_witness :
    replayFlow [] (("missing_flow").toList) = ReplayOutcome.notFound ∧
    replayFlowWithParams [] (("missing_flow").toList) (fun _ => []) =
      ParamReplayOutcome.notFound ∧
    replayFlow [((("e").toList), { original_user_task := none, history := [] })]
      (("e").toList) = ReplayOutcome.emptyHistory ∧
    replayFlowWithParams [((("e").toList), { original_user_task := none, history := [] })]
      (("e").toList) (fun _ => []) = ParamReplayOutcome.emptyHistory := by
  refine ⟨?_, ?_, ?_, ?_⟩
  · exact ((C6_replay_guards [] (("missing_flow").toList) (fun _ => [])).1 rfl).1
  · exact ((C6_replay_guards [] (("missing_flow").toList) (fun _ => [])).1 rfl).2
  · exact ((C6_replay_guards [((("e").toList), { original_user_task := none, history := [] })]
      (("e").toList) (fun _ => [])).2 { original_user_task := none, history := [] } rfl rfl).1
  · exact ((C6_replay_guards [((("e").toList), { original_user_task := none, history := [] })]
      (("e").toList) (fun _ => [])).2 { original_user_task := none, history := [] } rfl rfl).2

/-- Claim C7 (confirmed).  Substituting every extracted parameter's own
default value back into the task it was extracted from is the identity. -/
theorem C7_self_substitution (T : Str) :
    substituteParametersInTask T (extractParametersFromTask T)
      (extractParametersFromTask T) = T := by
  apply substitute_id
  intro p hp
  left
  exact lookupBy_eq_of_mem_nodup _ _ _ (extract_keys_nodup T) (by simpa using hp)

/-- Claim C9 (confirmed).  While a recording is active, a second
`start_recording` request fails with the "Already recording" outcome, leaves
the manager state unchanged and does not touch the flow store. -/
theorem C9_recording_conflict (m : RecordingManager) (store : FlowStore) (name : Str)
    (h : m.is_recording = true) :
    startRecording m store name = ((false, ("Already recording").toList), m, store) := by
  simp [startRecording, h]

/-- Claim C9 witness: the conflict theorem at a concrete active manager. -/
theorem C9_witness :
    startRecording { is_recording := true, current_flow_name := none } []
      (("myflow").toList) =
      ((false, ("Already recording").toList),
       { is_recording := true, current_flow_name := none }, []) :=
  C9_recording_conflict { is_recording := true, current_flow_name := none } []
    (("myflow").toList) rfl

/-- Claim C10 (confirmed).  Whenever the case-sensitive split on "search for"
produces a second part that strips to nothing, extraction still records
`search_term` with the empty string as its default, so the parameter set is
non-empty and an empty old value can reach the substitution engine. -/
theorem C10_blank_search_term (task : Str)
    (h1 : (pySplit task sepStr).length > 1)
    (h2 : pyStrip ((pySplit task sepStr).getD 1 []) = []) :
    lookupBy (extractParametersFromTask task) skey = some [] ∧
    extractParametersFromTask task ≠ [] := by
  have hinfT : sepStr <:+: task := infix_of_pySplit_length sepStr task h1
  have heq : toLowerL sepStr = sepStr := by decide
  have hlow : strIn sepStr (toLowerL task) = true :=
    (strIn_iff _ _).mpr (heq ▸ toLowerL_mono _ _ hinfT)
  simp only [extractParametersFromTask]
  rw [if_pos hlow, if_pos h1, h2,
    pyReplace_nil ogStr [] (by decide), pyReplace_nil obStr [] (by decide)]
  exact ⟨lookupBy_dictSet_self _ _ _, dictSet_ne_nil _ _ _⟩

/-- Claim C10 witness: the theorem at the concrete task "please search for ". -/
theorem C10_witness :
    lookupBy (extractParametersFromTask (("please search for ").toList)) skey = some [] ∧
    extractParametersFromTask (("please search for ").toList) ≠ [] :=
  C10_blank_search_term (("please search for ").toList) (by decide) (by decide)

/-- Claim C8 (confirmed).  Manual conversion sets `original_user_task` to the
supplied description, produces one step per event in event order with no
merging (navigation to `go_to_url`, click to `click_element_by_index`, input
to `input_text`), and marks exactly the final step's result as done; in
particular the concrete three-event scenario yields a 3-step flow whose last
step alone is done. -/
theorem C8_manual_conversion (events : List CapturedEvent) (desc : Str) :
    (createFlowStructure (convertToBrowserUseActions events) desc).original_user_task =
      some desc ∧
    (createFlowStructure (convertToBrowserUseActions events) desc).history.length =
      events.length ∧
    (∀ i, i < events.length →
      actionTypeAt (createFlowStructure (convertToBrowserUseActions events) desc) i =
        (events[i]?).map eventKey) ∧
    (∀ i, i < events.length →
      (isDoneAt (createFlowStructure (convertToBrowserUseActions events) desc) i = true ↔
        i = events.length - 1)) ∧
    (∀ u d v,
      (createFlowStructure (convertToBrowserUseActions
        [CapturedEvent.navigation u, CapturedEvent.click d, CapturedEvent.input v])
        (("demo").toList)).history.length = 3 ∧
      isDoneAt (createFlowStructure (convertToBrowserUseActions
        [CapturedEvent.navigation u, CapturedEvent.click d, CapturedEvent.input v])
        (("demo").toList)) 2 = true ∧
      isDoneAt (createFlowStructure (convertToBrowserUseActions
        [CapturedEvent.navigation u, CapturedEvent.click d, CapturedEvent.input v])
        (("demo").toList)) 0 = false ∧
      isDoneAt (createFlowStructure (convertToBrowserUseActions
        [CapturedEvent.navigation u, CapturedEvent.click d, CapturedEvent.input v])
        (("demo").toList)) 1 = false) := by
  have hlen : (convertToBrowserUseActions events).length = events.length := by
    rw [convert_eq, convertFrom_length]
  refine ⟨rfl, ?_, ?_, ?_, ?_⟩
  · simp only [createFlowStructure]
    rw [buildHistory_length, hlen]
  · intro i hi
    obtain ⟨e, he⟩ : ∃ e, events[i]? = some e :=
      ⟨events[i], List.getElem?_eq_getElem hi⟩
    simp only [actionTypeAt, createFlowStructure]
    rw [buildHistory_get, convert_eq, convertFrom_get, he]
    simp [mkManualStep, convertEvent_fst]
  · intro i hi
    obtain ⟨e, he⟩ : ∃ e, events[i]? = some e :=
      ⟨events[i], List.getElem?_eq_getElem hi⟩
    simp only [isDoneAt, createFlowStructure]
    rw [buildHistory_get, convert_eq, convertFrom_get, he]
    simp [mkManualStep, hlen, convertFrom_length, beq_iff_eq]
  · intro u d v
    exact ⟨rfl, rfl, rfl, rfl⟩

/-- Claim C8 witness: the conversion theorem at a concrete three-event
capture. -/
theorem C8_witness :
    actionTypeAt (createFlowStructure (convertToBrowserUseActions
      [CapturedEvent.navigation [], CapturedEvent.click [], CapturedEvent.input []])
      (("demo").toList)) 0 = some goKey ∧
    isDoneAt (createFlowStructure (convertToBrowserUseActions
      [CapturedEvent.navigation [], CapturedEvent.click [], CapturedEvent.input []])
      (("demo").toList)) 2 = true := by
  have h := C8_manual_conversion
    [CapturedEvent.navigation [], CapturedEvent.click [], CapturedEvent.input []]
    (("demo").toList)
  constructor
  · rw [h.2.2.1 0 (by decide)]
    rfl
  · exact (h.2.2.2.1 2 (by decide)).mpr (by decide)
